import Mathlib

set_option maxRecDepth 100000

/-!
Verification development for the docker-log-emitter repository.

The Rust sources are shallowly embedded:
  * Rust byte slices (`&[u8]`, `Vec<u8>`) become `List Nat` (each element < 256
    by construction of the producers).
  * Rust `&str`/`String` become Lean `String`; byte-level operations
    (`str::len`, `&s[..n]`) are modelled through an explicit UTF-8 encoder so
    that Rust's byte-index slicing semantics (including its panic on a
    non-character-boundary index) are captured exactly.
  * Fallible operations (Rust panics) are modelled with `Option`: `none`
    models a panic of the surrounding task.
  * `chrono` timestamp handling is modelled with an explicit
    proleptic-Gregorian calendar (Howard Hinnant's `days_from_civil` /
    `civil_from_days` algorithms, the same ones chrono implements) and a
    byte-level RFC3339 parser mirroring `DateTime::parse_from_rfc3339`.
    One simplification: leap-second inputs (`:60`) are rejected by the model
    parser; no claim concerns them.
  * The async environment (Docker API results, the clock, socket outcomes)
    is passed in explicitly as data, and each loop is run over a finite
    script of environment events, so that traces of the real loops are
    finite prefixes of runs of the model.
-/

/-! ## UTF-8 byte model for Rust strings -/

/-- UTF-8 encoding of a single unicode scalar value, as byte values. -/
def utf8Bytes (c : Char) : List Nat :=
  let n := c.toNat
  if n < 0x80 then [n]
  else if n < 0x800 then [0xC0 + n / 64, 0x80 + n % 64]
  else if n < 0x10000 then [0xE0 + n / 4096, 0x80 + (n / 64) % 64, 0x80 + n % 64]
  else [0xF0 + n / 262144, 0x80 + (n / 4096) % 64, 0x80 + (n / 64) % 64, 0x80 + n % 64]

/-- UTF-8 encoding of a character list. -/
def charsFlat : List Char → List Nat
  | [] => []
  | c :: cs => utf8Bytes c ++ charsFlat cs

/-- The UTF-8 bytes of a string: the value of Rust `s.as_bytes()`. -/
def strBytes (s : String) : List Nat :=
  charsFlat s.data

/-- Total UTF-8 byte length of a character list. -/
def charsByteLen : List Char → Nat
  | [] => 0
  | c :: cs => (utf8Bytes c).length + charsByteLen cs

/-- Rust `str::len`: the UTF-8 byte length of a string. -/
def byteLen (s : String) : Nat :=
  charsByteLen s.data

/-- Rust byte slicing `&s[..n]` on a character list: returns the characters
making up the first `n` bytes when `n` falls on a character boundary, and
`none` (modelling the Rust panic) when it falls strictly inside a multi-byte
character or past the end of the string. -/
def sliceChars : List Char → Nat → Option (List Char)
  | _, 0 => some []
  | [], _ + 1 => none
  | c :: cs, n + 1 =>
    if (utf8Bytes c).length ≤ n + 1 then
      (sliceChars cs (n + 1 - (utf8Bytes c).length)).map (fun t => c :: t)
    else none

/-- Rust `&s[..n]` on a string. -/
def byteSlice (s : String) (n : Nat) : Option String :=
  (sliceChars s.data n).map (fun l => String.mk l)

/-- The truncation pattern used throughout `syslog.rs`:
`if s.len() > limit { &s[..limit] } else { s }`. -/
def truncTo (s : String) (limit : Nat) : Option String :=
  if byteLen s > limit then byteSlice s limit else some s

/-- `n` is a character boundary of `s` (in Rust's sense: the byte index `n`
is the total byte length of some prefix of the characters of `s`). -/
def IsByteBoundary (s : String) (n : Nat) : Prop :=
  ∃ k, charsByteLen (s.data.take k) = n

/-! ## Calendar model (chrono) -/

/-- Days since 1970-01-01 of a proleptic-Gregorian civil date
(Howard Hinnant's `days_from_civil`, as used by chrono). -/
def daysFromCivil (y : Int) (m d : Nat) : Int :=
  let y := if m ≤ 2 then y - 1 else y
  let era := Int.ediv y 400
  let yoe := (y - era * 400).toNat
  let doy := (153 * (if m > 2 then m - 3 else m + 9) + 2) / 5 + d - 1
  let doe := yoe * 365 + yoe / 4 - yoe / 100 + doy
  era * 146097 + (doe : Int) - 719468

/-- Civil date from days since 1970-01-01 (Hinnant's `civil_from_days`). -/
def civilFromDays (z0 : Int) : Int × Nat × Nat :=
  let z := z0 + 719468
  let era := Int.ediv z 146097
  let doe := (z - era * 146097).toNat
  let yoe := (doe - doe / 1460 + doe / 36524 - doe / 146096) / 365
  let y := (yoe : Int) + era * 400
  let doy := doe - (365 * yoe + yoe / 4 - yoe / 100)
  let mp := (5 * doy + 2) / 153
  let d := doy - (153 * mp + 2) / 5 + 1
  let m := if mp < 10 then mp + 3 else mp - 9
  (if m ≤ 2 then y + 1 else y, m, d)

/-- A UTC datetime (chrono `DateTime<Utc>`). -/
structure UtcDateTime where
  year : Int
  month : Nat
  day : Nat
  hour : Nat
  minute : Nat
  second : Nat
  nano : Nat
  deriving DecidableEq, Repr

/-- A fixed-offset datetime (chrono `DateTime<FixedOffset>`): naive civil
fields plus an offset in seconds east of UTC. -/
structure FixedDateTime where
  year : Int
  month : Nat
  day : Nat
  hour : Nat
  minute : Nat
  second : Nat
  nano : Nat
  offset : Int
  deriving DecidableEq, Repr

/-- chrono `DateTime::timestamp` for a fixed-offset datetime: unix seconds. -/
def fixedTimestamp (dt : FixedDateTime) : Int :=
  daysFromCivil dt.year dt.month dt.day * 86400
    + (dt.hour * 3600 + dt.minute * 60 + dt.second : Nat) - dt.offset

/-- Rebuild civil UTC fields from a unix timestamp, keeping the nanoseconds. -/
def fromTimestampNano (t : Int) (nano : Nat) : UtcDateTime :=
  let days := Int.ediv t 86400
  let sod := (Int.emod t 86400).toNat
  let c := civilFromDays days
  ⟨c.1, c.2.1, c.2.2, sod / 3600, sod % 3600 / 60, sod % 60, nano⟩

/-- chrono `DateTime::to_utc`. -/
def toUtc (dt : FixedDateTime) : UtcDateTime :=
  fromTimestampNano (fixedTimestamp dt) dt.nano

/-- chrono `DateTime<Utc>::timestamp`: unix seconds. -/
def utcTimestamp (u : UtcDateTime) : Int :=
  daysFromCivil u.year u.month u.day * 86400
    + (u.hour * 3600 + u.minute * 60 + u.second : Nat)

/-! ## RFC3339 parsing (chrono `DateTime::parse_from_rfc3339`)

The Rust code first checks the token with `std::str::from_utf8` and then
parses the resulting `&str`.  Every byte string accepted by the RFC3339
grammar is pure ASCII (hence valid UTF-8), and both the UTF-8 check and the
chrono parser reject any trailing garbage, so parsing the raw bytes directly
is observably identical to `from_utf8` followed by `parse_from_rfc3339`. -/

/-- Read exactly `n` decimal digit bytes, most significant first. -/
def readDigits : Nat → Nat → List Nat → Option (Nat × List Nat)
  | 0, acc, l => some (acc, l)
  | _ + 1, _, [] => none
  | n + 1, acc, b :: l =>
    if 48 ≤ b ∧ b ≤ 57 then readDigits n (acc * 10 + (b - 48)) l else none

/-- Consume one expected byte. -/
def expectByte (l : List Nat) (b : Nat) : Option (List Nat) :=
  match l with
  | x :: rest => if x = b then some rest else none
  | [] => none

/-- Nanoseconds denoted by a digit run: chrono keeps the first nine digits
and ignores the rest. -/
def nanoOfDigits (ds : List Nat) : Nat :=
  let d9 := ds.take 9
  (d9.foldl (fun a b => a * 10 + (b - 48)) 0) * 10 ^ (9 - d9.length)

/-- Optional fractional seconds: a dot followed by at least one digit. -/
def readFrac (l : List Nat) : Option (Nat × List Nat) :=
  match l with
  | 46 :: rest =>
    let ds := rest.takeWhile (fun b => decide (48 ≤ b ∧ b ≤ 57))
    if ds.isEmpty then none else some (nanoOfDigits ds, rest.drop ds.length)
  | _ => some (0, l)

/-- A numeric timezone offset body `HH:MM`, in seconds. -/
def readHM (l : List Nat) : Option (Nat × List Nat) := do
  let (h, l) ← readDigits 2 0 l
  let l ← expectByte l 58
  let (m, l) ← readDigits 2 0 l
  if m ≤ 59 ∧ h * 3600 + m * 60 < 86400 then some (h * 3600 + m * 60, l) else none

/-- A timezone offset: `Z`, `z`, `+HH:MM` or `-HH:MM`, in seconds east. -/
def readOffset (l : List Nat) : Option (Int × List Nat) :=
  match l with
  | 90 :: rest => some (0, rest)
  | 122 :: rest => some (0, rest)
  | 43 :: rest => (readHM rest).map (fun p => ((p.1 : Int), p.2))
  | 45 :: rest => (readHM rest).map (fun p => (-(p.1 : Int), p.2))
  | _ => none

/-- Whether year `y` is a Gregorian leap year. -/
def isLeapYear (y : Int) : Bool :=
  Int.emod y 4 = 0 ∧ (Int.emod y 100 ≠ 0 ∨ Int.emod y 400 = 0)

/-- Number of days in a month. -/
def daysInMonth (y : Int) (m : Nat) : Nat :=
  if m = 2 then (if isLeapYear y then 29 else 28)
  else if m = 4 ∨ m = 6 ∨ m = 9 ∨ m = 11 then 30
  else 31

/-- chrono `DateTime::parse_from_rfc3339` on raw bytes.  Grammar:
`YYYY-MM-DD` + (`T`|`t`|space) + `HH:MM:SS` + optional `.digits` + offset,
with full input consumption and civil-range validation. -/
def parseRfc3339Bytes (l : List Nat) : Option FixedDateTime := do
  let (y, l) ← readDigits 4 0 l
  let l ← expectByte l 45
  let (mo, l) ← readDigits 2 0 l
  let l ← expectByte l 45
  let (d, l) ← readDigits 2 0 l
  let l ← match l with
    | b :: rest => if b = 84 ∨ b = 116 ∨ b = 32 then some rest else none
    | [] => none
  let (h, l) ← readDigits 2 0 l
  let l ← expectByte l 58
  let (mi, l) ← readDigits 2 0 l
  let l ← expectByte l 58
  let (s, l) ← readDigits 2 0 l
  let (nano, l) ← readFrac l
  let (off, l) ← readOffset l
  if l = [] ∧ 1 ≤ mo ∧ mo ≤ 12 ∧ 1 ≤ d ∧ d ≤ daysInMonth (y : Int) mo
      ∧ h ≤ 23 ∧ mi ≤ 59 ∧ s ≤ 59 then
    some ⟨(y : Int), mo, d, h, mi, s, nano, off⟩
  else none

/-! ## Timestamp formatting (chrono) -/

/-- Zero-pad a natural number to a given width. -/
def padNum (w : Nat) (n : Nat) : String :=
  let s := toString n
  String.mk (List.replicate (w - s.length) '0') ++ s

/-- chrono `to_rfc3339_opts(SecondsFormat::Micros, true)` on a UTC datetime:
microsecond precision, `Z` suffix.  (Years outside 0..=9999 cannot be
produced by the parser above; the model prints them unpadded.) -/
def formatRfc3339Micros (u : UtcDateTime) : String :=
  (if u.year < 0 then "-" ++ padNum 4 (-u.year).toNat else padNum 4 u.year.toNat)
    ++ "-" ++ padNum 2 u.month ++ "-" ++ padNum 2 u.day
    ++ "T" ++ padNum 2 u.hour ++ ":" ++ padNum 2 u.minute ++ ":" ++ padNum 2 u.second
    ++ "." ++ padNum 6 (u.nano / 1000) ++ "Z"

/-- Abbreviated month name (`%b`). -/
def monthAbbrev (m : Nat) : String :=
  (["Jan", "Feb", "Mar", "Apr", "May", "Jun",
    "Jul", "Aug", "Sep", "Oct", "Nov", "Dec"].drop (m - 1)).headD ""

/-- chrono `format("%b %e %H:%M:%S")`: the RFC3164 header timestamp
(space-padded day of month). -/
def format3164Ts (u : UtcDateTime) : String :=
  monthAbbrev u.month ++ " "
    ++ (if u.day < 10 then " " ++ toString u.day else toString u.day)
    ++ " " ++ padNum 2 u.hour ++ ":" ++ padNum 2 u.minute ++ ":" ++ padNum 2 u.second

/-! ## syslog.rs -/

/-- `syslog.rs`: syslog facilities. -/
inductive Facility
  | Kernel
  | UserLevel
  | MailSystem
  | SystemDaemon
  | SecurityMessage
  | SyslogdInternal
  | LinePrinter
  | NetworkNews
  | Uucp
  | ClockDaemon
  | FtpDaemon
  | Ntp
  | LogAudit
  | LogAlert
  | Local0
  | Local1
  | Local2
  | Local3
  | Local4
  | Local5
  | Local6
  | Local7
  deriving DecidableEq, Repr

/-- `Facility::numerical_code`. -/
def Facility.numerical_code : Facility → Nat
  | .Kernel => 0
  | .UserLevel => 1
  | .MailSystem => 2
  | .SystemDaemon => 3
  | .SecurityMessage => 4
  | .SyslogdInternal => 5
  | .LinePrinter => 6
  | .NetworkNews => 7
  | .Uucp => 8
  | .ClockDaemon => 9
  | .FtpDaemon => 11
  | .Ntp => 12
  | .LogAudit => 13
  | .LogAlert => 14
  | .Local0 => 16
  | .Local1 => 17
  | .Local2 => 18
  | .Local3 => 19
  | .Local4 => 20
  | .Local5 => 21
  | .Local6 => 22
  | .Local7 => 23

/-- `syslog.rs`: syslog severities. -/
inductive Severity
  | Emergency
  | Alert
  | Critical
  | Error
  | Warning
  | Notice
  | Informational
  | Debug
  deriving DecidableEq, Repr

/-- `Severity::numerical_code`. -/
def Severity.numerical_code : Severity → Nat
  | .Emergency => 0
  | .Alert => 1
  | .Critical => 2
  | .Error => 3
  | .Warning => 4
  | .Notice => 5
  | .Informational => 6
  | .Debug => 7

/-- `syslog.rs`: the two formatter variants with their frozen fields. -/
inductive Formatter
  | rfc3164 (pri_offset : Nat) (hostname : String) (procid : String)
  | rfc5424 (pri_offset : Nat) (hostname : String) (procid : String) (msgid : String)
  deriving DecidableEq, Repr

/-- `Formatter::rfc3164` constructor: `procid` renders as `[pid]` or empty. -/
def Formatter.mkRfc3164 (facility : Facility) (hostname : String) (pid : Option Int) : Formatter :=
  let procid := match pid with
    | none => ""
    | some p => "[" ++ toString p ++ "]"
  .rfc3164 (facility.numerical_code * 8) hostname procid

/-- The procid closure of `Formatter::rfc5424`: decimal pid, `-` when
absent. -/
def procidField (pid : Option Int) : String :=
  match pid with
  | none => "-"
  | some p => toString p

/-- The msgid closure of `Formatter::rfc5424`: `-` when absent, else
truncated to 32 bytes. -/
def msgidField (msgid : Option String) : Option String :=
  match msgid with
  | none => some "-"
  | some m => truncTo m 32

/-- `Formatter::rfc5424` constructor: hostname truncated to 255 bytes, msgid
to 32 bytes, absent pid/msgid render as `-`.  `none` models the panic of
Rust byte slicing at a non-character-boundary index. -/
def Formatter.mkRfc5424 (facility : Facility) (hostname : String) (pid : Option Int)
    (msgid : Option String) : Option Formatter :=
  (truncTo hostname 255).bind (fun hostname =>
    (msgidField msgid).bind (fun msgid =>
      some (.rfc5424 (facility.numerical_code * 8) hostname (procidField pid) msgid)))

/-- The app-name field of the RFC5424 variant: truncated to 48 bytes,
absent renders as `-` (`Formatter::format`, Rfc5424 branch). -/
def appField (app_name : Option String) : Option String :=
  match app_name with
  | none => some "-"
  | some a => truncTo a 48

/-- The header string built by `Formatter::format` before the message bytes
are appended (the `format!` calls in both branches). -/
def Formatter.headerStr (f : Formatter) (app_name : Option String) (severity : Severity)
    (ts : UtcDateTime) : Option String :=
  match f with
  | .rfc3164 pri_offset hostname procid =>
    let pri := pri_offset + severity.numerical_code
    some ("<" ++ toString pri ++ ">" ++ format3164Ts ts ++ " " ++ hostname
      ++ " " ++ app_name.getD "-" ++ procid ++ ": ")
  | .rfc5424 pri_offset hostname procid msgid => do
    let pri := pri_offset + severity.numerical_code
    let app ← appField app_name
    some ("<" ++ toString pri ++ ">1 " ++ formatRfc3339Micros ts ++ " " ++ hostname
      ++ " " ++ app ++ " " ++ procid ++ " " ++ msgid ++ " - ")

/-- The message filter of `Formatter::format`: drop every LF (10) and CR
(13) byte, keep everything else verbatim. -/
def msgFilter (msg : List Nat) : List Nat :=
  msg.filter (fun b => !(b == 10 || b == 13))

/-- `Formatter::format`: header bytes, then the filtered message bytes, then
a single trailing newline.  `none` models the panic of app-name slicing. -/
def Formatter.format (f : Formatter) (msg : List Nat) (app_name : Option String)
    (severity : Severity) (ts : UtcDateTime) : Option (List Nat) :=
  (f.headerStr app_name severity ts).map (fun hdr => strBytes hdr ++ msgFilter msg ++ [10])

/-! ## helpers.rs -/

/-- ASCII lowercasing of one character (Rust `to_ascii_lowercase`). -/
def asciiLower (c : Char) : Char :=
  if 65 ≤ c.toNat ∧ c.toNat ≤ 90 then Char.ofNat (c.toNat + 32) else c

/-- Rust `str::trim` (modelled for ASCII whitespace). -/
def trimChars (l : List Char) : List Char :=
  ((l.dropWhile Char.isWhitespace).reverse.dropWhile Char.isWhitespace).reverse

/-- `helpers::bool_from_str`: lowercase, trim, compare against the truthy
words. -/
def bool_from_str (s : String) : Bool :=
  let t := String.mk (trimChars (s.data.map asciiLower))
  t = "true" || t = "t" || t = "1" || t = "yes" || t = "y" || t = "on"

/-- `helpers::file_name_from_str`: the part after the last path separator,
or the whole string if none. -/
def file_name_from_str (s : String) : String :=
  String.mk ((s.data.reverse.takeWhile (fun c => !(c == '/'))).reverse)

/-! ## container_logs.rs

The Docker daemon, the clock and the channel are external to the program;
they enter the model as explicit data: each raw log line carries the clock
value `now` that `Utc::now()` would read while handling it, and the per-line
records are collected into a list (the channel accepts every record; a
channel-send error is only logged by the source and changes nothing else).
The `exec-by-pid` per-line process-name refinement reads the host process
table and is abstracted away: the model passes the statically resolved app
name, which is exact for builds without that feature or with
`USE_EXEC_PID` disabled, and claims here do not depend on the app name. -/

/-- `bollard::container::LogOutput`: one raw log line with its stream. -/
inductive LogOutput
  | stdErr (message : List Nat)
  | stdOut (message : List Nat)
  | stdIn (message : List Nat)
  | console (message : List Nat)
  deriving DecidableEq, Repr

/-- The message bytes of a log line. -/
def LogOutput.message : LogOutput → List Nat
  | .stdErr m => m
  | .stdOut m => m
  | .stdIn m => m
  | .console m => m

/-- Whether the line came from stderr (`handle_log_line`'s `is_err`). -/
def LogOutput.isErr : LogOutput → Bool
  | .stdErr _ => true
  | _ => false

/-- `line.strip_suffix(b"\n\r").unwrap_or(line)`. -/
def stripSuffixNlCr (l : List Nat) : List Nat :=
  match l.reverse with
  | 13 :: 10 :: rest => rest.reverse
  | _ => l

/-- `splitn(2, b' ')` refactored: the part before the first space and, when
a space exists, the part after it. -/
def splitAtSpace : List Nat → Option (List Nat × List Nat)
  | [] => none
  | 32 :: rest => some ([], rest)
  | b :: rest => (splitAtSpace rest).map (fun p => (b :: p.1, p.2))

/-- `container_logs::parse_log_line`: strip a trailing `\n\r`, split at the
first space; if a second part exists the first part is parsed as an RFC3339
timestamp (falling back to the current time `now` when unparsable) and the
second part is the message; with no space the whole line is the message,
stamped `now`. -/
def parse_log_line (now : UtcDateTime) (line : List Nat) : Option (UtcDateTime × List Nat) :=
  match splitAtSpace (stripSuffixNlCr line) with
  | some (date, msg) =>
    let d := match parseRfc3339Bytes date with
      | some fdt => toUtc fdt
      | none => now
    some (d, msg)
  | none => some (now, stripSuffixNlCr line)

/-- `container_logs::handle_log_line`: classify the stream (stderr gives
severity Error, everything else Informational), parse the line, format it,
emit the record, and return the parsed line's unix-second timestamp.
Outer `none` models a formatting panic; inner `none` is the no-parse path
of the source (no record, no timestamp). -/
def handle_log_line (now : UtcDateTime) (line : LogOutput) (formatter : Formatter)
    (app_name : Option String) : Option (Option (List Nat × Int)) :=
  match parse_log_line now line.message with
  | none => some none
  | some (ts, msg) =>
    let severity := if line.isErr then Severity.Error else Severity.Informational
    (formatter.format msg app_name severity ts).map (fun data => some (data, utcTimestamp ts))

/-- The part of `bollard`'s `ContainerInspectResponse` that `collect`
reads. -/
structure InspectInfo where
  name : Option String
  pid : Option Int
  labels : List (String × String)
  path : Option String
  deriving DecidableEq, Repr

/-- Association-list lookup standing for the labels `HashMap`. -/
def lookupLabel : List (String × String) → String → Option String
  | [], _ => none
  | (k, v) :: rest, key => if k = key then some v else lookupLabel rest key

/-- The result tuple of `container_logs::container_infos`. -/
structure ContainerInfos where
  container_name : Option String
  pid : Option Int
  labels : List (String × String)
  enabled : Bool
  deriving DecidableEq, Repr

/-- `container_logs::container_infos`: strip the leading `/` of the
container name, extract the pid, and read the `enabled` label (absent
label defaults to true). -/
def container_infos (info : InspectInfo) : ContainerInfos :=
  let container_name := info.name.map (fun n =>
    match n.data with
    | '/' :: rest => String.mk rest
    | _ => n)
  let enabled := match lookupLabel info.labels "de.hammer065.docker-log-emitter.enabled" with
    | none => true
    | some v => bool_from_str v
  ⟨container_name, info.pid, info.labels, enabled⟩

/-- `container_logs::exec_by_container_info`: basename of the container's
entrypoint path, falling back to the container name. -/
def exec_by_container_info (container_path container_name : Option String) : Option String :=
  match container_path with
  | some p => some (file_name_from_str p)
  | none => container_name

/-- `container_logs::get_formatter`: variant switch between the two
formatter constructors (`USE_RFC_3164` modelled as the argument
`use3164`). -/
def get_formatter (use3164 : Bool) (facility : Facility) (hostname : String)
    (pid : Option Int) (msgid : Option String) : Option Formatter :=
  if use3164 then some (Formatter.mkRfc3164 facility hostname pid)
  else Formatter.mkRfc5424 facility hostname pid msgid

/-- How one opened log stream ended: a clean close (`None`, the container
stopped) or a read error (`Some(Err)`, the stream is reopened). -/
inductive StreamEnd
  | closed
  | errored
  deriving DecidableEq, Repr

/-- The environment of one iteration of `collect`'s outer loop: the
cancellation state at its top, the Docker connect and inspect outcomes, the
`Ok` lines the opened stream yields (each with the clock value read while
handling it), whether cancellation fires during the stream, and how the
stream ends. -/
structure OuterEnv where
  cancelledAtStart : Bool
  connectOk : Bool
  inspectRes : Option InspectInfo
  items : List (UtcDateTime × LogOutput)
  cancelledMidStream : Bool
  streamEnd : StreamEnd
  deriving Repr

/-- Observable outcome of a `collect` run: the records pushed to the
channel, how many log streams were opened, the successive values assigned
to the `since` watermark, and whether the task panicked. -/
structure CollectOut where
  records : List (List Nat)
  opened : Nat
  sinceTrace : List Int
  panicked : Bool
  deriving DecidableEq, Repr

/-- The inner stream loop of `collect`: handle each line, collecting emitted
records and every `since = ts` watermark assignment (the watermark value is
observable only through these assignments and through the resume point of
the next stream open). -/
def runStream (formatter : Formatter) (app_name : Option String) :
    List (UtcDateTime × LogOutput) → CollectOut
  | [] => ⟨[], 0, [], false⟩
  | (now, line) :: rest =>
    match handle_log_line now line formatter app_name with
    | none => ⟨[], 0, [], true⟩
    | some none => runStream formatter app_name rest
    | some (some (data, ts)) =>
      let out := runStream formatter app_name rest
      ⟨data :: out.records, 0, ts :: out.sinceTrace, out.panicked⟩

/-- `container_logs::collect`, run over a finite script of outer-loop
environments (an exhausted script ends the observation).  Mirrors the
source's control flow: cancellation check, Docker connect, inspect, the
`enabled` gate, formatter construction, static app-name resolution, stream
open, the inner line loop, and the reopen-on-error path. -/
def collectRun (use3164 : Bool) (hostname : String) :
    Int → List OuterEnv → CollectOut
  | _, [] => ⟨[], 0, [], false⟩
  | since, env :: rest =>
    if env.cancelledAtStart then ⟨[], 0, [], false⟩
    else if !env.connectOk then ⟨[], 0, [], false⟩
    else match env.inspectRes with
    | none => ⟨[], 0, [], false⟩
    | some info =>
      let infos := container_infos info
      if !infos.enabled then ⟨[], 0, [], false⟩
      else match get_formatter use3164 Facility.SystemDaemon hostname infos.pid
          infos.container_name with
      | none => ⟨[], 0, [], true⟩
      | some formatter =>
        let static_app_name :=
          match lookupLabel infos.labels "de.hammer065.docker-log-emitter.app_name" with
          | some a => some a
          | none => exec_by_container_info info.path infos.container_name
        let out := runStream formatter static_app_name env.items
        if out.panicked then ⟨out.records, 1, out.sinceTrace, true⟩
        else if env.cancelledMidStream then ⟨out.records, 1, out.sinceTrace, false⟩
        else match env.streamEnd with
        | .closed => ⟨out.records, 1, out.sinceTrace, false⟩
        | .errored =>
          let since2 := out.sinceTrace.getLast?.getD since
          let tail := collectRun use3164 hostname since2 rest
          ⟨out.records ++ tail.records, 1 + tail.opened,
            out.sinceTrace ++ tail.sinceTrace, tail.panicked⟩

/-! ## emitter.rs

Socket and file I/O outcomes are external; they enter the model as oracles:
a list of booleans answering successive I/O attempts, and event lists
driving the sink loops.  `none` from a runner means the observed oracle
ended before the loop did (the real loop would still be retrying). -/

/-- `emitter::MAX_UDP_PACKET_SIZE`. -/
def MAX_UDP_PACKET_SIZE : Nat := 65507

/-- The payload the Udp branch of `SocketSender::send` passes to
`socket.send`: records above the maximum datagram size are cut to it,
otherwise the trailing newline is stripped.  `none` models the panic of
`&data[..data.len() - 1]` on an empty record. -/
def udpPayload (data : List Nat) : Option (List Nat) :=
  if data.length > MAX_UDP_PACKET_SIZE then some (data.take MAX_UDP_PACKET_SIZE)
  else if data.length = 0 then none
  else some (data.take (data.length - 1))

/-- Events of one `SocketSender::send` call on the Tcp variant. -/
inductive TcpEv
  | connFail
  | connOk
  | writeFail
  | writeOk
  | flushFail
  | flushOk
  deriving DecidableEq, Repr

/-- The retry loop of `SocketSender::send` (Tcp variant) over an oracle of
I/O outcomes: while disconnected, each oracle entry answers a connect
attempt (failure sleeps and retries); once connected, the next entries
answer `write_all` and `flush`; any failure disconnects and restarts the
loop with the same record; the call returns only after a write and a flush
both succeed.  Returns the event trace, or `none` when the oracle is
exhausted first. -/
def sendTcpRun : Bool → List Bool → Option (List TcpEv)
  | false, o :: rest =>
    if o then (sendTcpRun true rest).map (fun t => .connOk :: t)
    else (sendTcpRun false rest).map (fun t => .connFail :: t)
  | true, true :: true :: _ => some [.writeOk, .flushOk]
  | true, true :: false :: rest =>
    (sendTcpRun false rest).map (fun t => .writeOk :: .flushFail :: t)
  | true, true :: [] => none
  | true, false :: rest => (sendTcpRun false rest).map (fun t => .writeFail :: t)
  | _, [] => none

/-- Number of completed (write+flush) deliveries in a send trace. -/
def deliveries (tr : List TcpEv) : Nat :=
  tr.count TcpEv.flushOk

/-- Observable outcome of a sink loop: whether it called
`cancellation_token.cancel()`, the records it consumed from the channel,
and the records it wrote to its destination. -/
structure SinkOut where
  cancelRequested : Bool
  consumed : List (List Nat)
  written : List (List Nat)
  deriving DecidableEq, Repr

/-- Events driving the `file` sink loop. -/
inductive FileEv
  | cancelled
  | sighup (reopenOk : Bool)
  | recvClosed
  | recvData (data : List Nat) (writeOk : Bool)
  deriving DecidableEq, Repr

/-- The select loop of `emitter::file` after a successful open: SIGHUP
reopens (or keeps the old handle), channel close or cancellation ends the
loop, and each received record is written (write failures are logged and
the record is dropped). -/
def fileLoop : List FileEv → SinkOut
  | [] => ⟨false, [], []⟩
  | .cancelled :: _ => ⟨false, [], []⟩
  | .sighup _ :: rest => fileLoop rest
  | .recvClosed :: _ => ⟨false, [], []⟩
  | .recvData d w :: rest =>
    let out := fileLoop rest
    ⟨out.cancelRequested, d :: out.consumed, if w then d :: out.written else out.written⟩

/-- `emitter::file`: when the initial append-mode open fails, the shared
cancellation token is cancelled and the function returns before touching
the channel; otherwise it runs the select loop. -/
def fileRun (openOk : Bool) (evs : List FileEv) : SinkOut :=
  if openOk then fileLoop evs else ⟨true, [], []⟩

/-- Events driving the `socket` sink loop.  `recvData` carries the record
and the I/O oracle its `send` call runs against. -/
inductive SockEv
  | cancelled
  | recvClosed
  | clearRecv
  | recvData (data : List Nat) (oracle : List Bool)
  deriving DecidableEq, Repr

/-- The select loop of `emitter::socket`: cancellation or channel close
ends the loop; an idle receive drain changes nothing; a received record is
sent through the retrying `send` (when the observed oracle ends before the
send completes, the loop is still inside `send` — the record was consumed
but not yet delivered). -/
def socketRun : List SockEv → SinkOut
  | [] => ⟨false, [], []⟩
  | .cancelled :: _ => ⟨false, [], []⟩
  | .recvClosed :: _ => ⟨false, [], []⟩
  | .clearRecv :: rest => socketRun rest
  | .recvData d oracle :: rest =>
    match sendTcpRun false oracle with
    | some _ =>
      let out := socketRun rest
      ⟨out.cancelRequested, d :: out.consumed, d :: out.written⟩
    | none => ⟨false, [d], []⟩

/-! ## Derived notions used by the claims -/

/-- The unix-second timestamp `handle_log_line` derives for a raw line
(faithful to the source: the parsed leading token, or the current time). -/
def lineTs (now : UtcDateTime) (line : LogOutput) : Int :=
  match parse_log_line now line.message with
  | some (ts, _) => utcTimestamp ts
  | none => 0

/-- The timestamps of a stream's lines, in order. -/
def lineTsList (items : List (UtcDateTime × LogOutput)) : List Int :=
  items.map (fun p => lineTs p.1 p.2)

/-- `monotoneFrom b l`: starting from `b`, the values of `l` never
decrease. -/
def monotoneFrom : Int → List Int → Bool
  | _, [] => true
  | b, x :: rest => decide (b ≤ x) && monotoneFrom x rest

/-- Per-script check that every successful inspection of the container shows
an `enabled` label that evaluates to false. -/
def disabledScript (script : List OuterEnv) : Bool :=
  script.all (fun env =>
    match env.inspectRes with
    | none => true
    | some info =>
      match lookupLabel info.labels "de.hammer065.docker-log-emitter.enabled" with
      | none => false
      | some v => !(bool_from_str v))

/-! ## Helper lemmas -/

theorem utf8Bytes_length_pos (c : Char) : 0 < (utf8Bytes c).length := by
  simp only [utf8Bytes]
  split_ifs <;> simp

theorem sliceChars_byteLen :
    ∀ (l : List Char) (n : Nat) (t : List Char), sliceChars l n = some t → charsByteLen t = n := by
  intro l
  induction l with
  | nil =>
    intro n t h
    cases n with
    | zero =>
      have h' : some ([] : List Char) = some t := h
      cases h'
      rfl
    | succ n =>
      have h' : (none : Option (List Char)) = some t := h
      exact absurd h' (by simp)
  | cons c cs ih =>
    intro n t h
    cases n with
    | zero =>
      have h' : some ([] : List Char) = some t := h
      cases h'
      rfl
    | succ n =>
      rw [sliceChars] at h
      by_cases hk : (utf8Bytes c).length ≤ n + 1
      · rw [if_pos hk, Option.map_eq_some'] at h
        obtain ⟨t', ht', rfl⟩ := h
        have := ih _ _ ht'
        simp only [charsByteLen, this]
        omega
      · rw [if_neg hk] at h
        exact absurd h (by simp)

theorem charsByteLen_take_le (l : List Char) (k : Nat) :
    charsByteLen (l.take k) ≤ charsByteLen l := by
  induction l generalizing k with
  | nil => simp [charsByteLen]
  | cons c cs ih =>
    cases k with
    | zero => simp [charsByteLen]
    | succ k =>
      simp only [List.take_succ_cons, charsByteLen]
      exact Nat.add_le_add_left (ih k) _

theorem sliceChars_isSome_of_take :
    ∀ (l : List Char) (k n : Nat), charsByteLen (l.take k) = n → (sliceChars l n).isSome := by
  intro l
  induction l with
  | nil =>
    intro k n h
    simp only [List.take_nil] at h
    have h0 : n = 0 := by simpa [charsByteLen] using h.symm
    subst h0
    rfl
  | cons c cs ih =>
    intro k n h
    cases k with
    | zero =>
      have h0 : n = 0 := by simpa [charsByteLen] using h.symm
      subst h0
      rfl
    | succ k =>
      simp only [List.take_succ_cons, charsByteLen] at h
      have hpos := utf8Bytes_length_pos c
      cases hn : n with
      | zero => omega
      | succ n' =>
        subst hn
        rw [sliceChars, if_pos (by omega)]
        have hk : charsByteLen (cs.take k) = n' + 1 - (utf8Bytes c).length := by omega
        have hrec := ih k _ hk
        obtain ⟨t, ht⟩ := Option.isSome_iff_exists.mp hrec
        rw [ht]
        rfl

theorem truncTo_some_spec (s : String) (limit : Nat) (t : String)
    (h : truncTo s limit = some t) :
    byteLen t ≤ limit ∧ (byteLen s > limit → byteLen t = limit)
      ∧ (byteLen s ≤ limit → t = s) := by
  unfold truncTo at h
  by_cases hgt : byteLen s > limit
  · rw [if_pos hgt] at h
    unfold byteSlice at h
    rw [Option.map_eq_some'] at h
    obtain ⟨l, hl, rfl⟩ := h
    have hlen : charsByteLen l = limit := sliceChars_byteLen _ _ _ hl
    refine ⟨?_, fun _ => ?_, fun hle => absurd hle (by omega)⟩
    · show charsByteLen (String.mk l).data ≤ limit
      simpa using Nat.le_of_eq hlen
    · show charsByteLen (String.mk l).data = limit
      simpa using hlen
  · rw [if_neg hgt] at h
    cases h
    exact ⟨by omega, fun hc => absurd hc hgt, fun _ => rfl⟩

theorem truncTo_isSome (s : String) (n : Nat)
    (h : IsByteBoundary s n ∨ byteLen s ≤ n) : (truncTo s n).isSome := by
  unfold truncTo
  by_cases hgt : byteLen s > n
  · rw [if_pos hgt]
    rcases h with ⟨k, hk⟩ | hle
    · unfold byteSlice
      obtain ⟨t, ht⟩ := Option.isSome_iff_exists.mp (sliceChars_isSome_of_take _ _ _ hk)
      rw [ht]
      rfl
    · omega
  · rw [if_neg hgt]
    rfl

theorem msgFilter_not_mem_10 (msg : List Nat) : 10 ∉ msgFilter msg := by
  intro hmem
  have := (List.mem_filter.mp hmem).2
  simp at this

theorem msgFilter_not_mem_13 (msg : List Nat) : 13 ∉ msgFilter msg := by
  intro hmem
  have := (List.mem_filter.mp hmem).2
  simp at this

theorem count_eq_zero_of_all_ne (l : List Nat) (b : Nat)
    (h : l.all (fun x => !(x == 10 || x == 13)) = true) (hb : b = 10 ∨ b = 13) :
    l.count b = 0 := by
  rw [List.count_eq_zero]
  intro hmem
  have := List.all_eq_true.mp h b hmem
  rcases hb with rfl | rfl <;> simp at this

theorem parse_log_line_isSome (now : UtcDateTime) (l : List Nat) :
    (parse_log_line now l).isSome := by
  unfold parse_log_line
  cases h : splitAtSpace (stripSuffixNlCr l) with
  | none => simp [h]
  | some p => simp [h]

/-! ## Claim theorems -/

/-- C1 (counterexample): for the raw stdout line
`2024-01-01T00:00:00.000000Z hello world` with the structured variant,
facility SystemDaemon, hostname `host1`, no pid, app-name `web`, msgid
`cid123`, the pipeline emits the priority-30 record (stdout lines get
severity Informational, 3*8+6 = 30), which differs from the priority-27
record the claim demands. -/
theorem c1_record_not_pri27 :
    ((Formatter.mkRfc5424 .SystemDaemon "host1" none (some "cid123")).bind
        (fun f => handle_log_line ⟨1970, 1, 1, 0, 0, 0, 0⟩
          (.stdOut (strBytes "2024-01-01T00:00:00.000000Z hello world")) f (some "web"))
      = some (some (strBytes "<30>1 2024-01-01T00:00:00.000000Z host1 web - cid123 - hello world\n",
          1704067200)))
    ∧ strBytes "<30>1 2024-01-01T00:00:00.000000Z host1 web - cid123 - hello world\n"
      ≠ strBytes "<27>1 2024-01-01T00:00:00.000000Z host1 web - cid123 - hello world\n" := by
  constructor
  · decide
  · decide

/-- C1 (amended): same scenario, but the formatted record is the
priority-30 byte string
`<30>1 2024-01-01T00:00:00.000000Z host1 web - cid123 - hello world\n`
(severity Informational for a stdout line), and the watermark timestamp
returned for the line is 1704067200. -/
theorem c1_scenario_record :
    (Formatter.mkRfc5424 .SystemDaemon "host1" none (some "cid123")).bind
        (fun f => handle_log_line ⟨1970, 1, 1, 0, 0, 0, 0⟩
          (.stdOut (strBytes "2024-01-01T00:00:00.000000Z hello world")) f (some "web"))
      = some (some (strBytes "<30>1 2024-01-01T00:00:00.000000Z host1 web - cid123 - hello world\n",
          1704067200)) := by
  decide

/-- C2 (counterexample): for the stderr line `plain message`, whose leading
token is not a parseable timestamp, `parse_log_line` consumes and discards
the leading token: the message component is `message`, not
`plain message`. -/
theorem c2_leading_token_dropped :
    parse_log_line ⟨2024, 1, 1, 0, 0, 0, 0⟩ (strBytes "plain message")
      = some (⟨2024, 1, 1, 0, 0, 0, 0⟩, strBytes "message")
    ∧ strBytes "message" ≠ strBytes "plain message" := by
  constructor
  · decide
  · decide

/-- C2 (amended): a stderr line with an unparseable leading token is
stamped with the current time and formatted with severity Error (numeric
code 3), but the leading token is consumed as the timestamp slot and
dropped from the message: with clock 2024-01-01T00:00:00Z the emitted
record carries only `message` and the watermark is the clock's second. -/
theorem c2_stderr_unparsable_line :
    ((Formatter.mkRfc5424 .SystemDaemon "host1" none (some "cid123")).bind
        (fun f => handle_log_line ⟨2024, 1, 1, 0, 0, 0, 0⟩
          (.stdErr (strBytes "plain message")) f (some "web"))
      = some (some (strBytes "<27>1 2024-01-01T00:00:00.000000Z host1 web - cid123 - message\n",
          1704067200)))
    ∧ Severity.Error.numerical_code = 3 := by
  constructor
  · decide
  · rfl

/-- C3 (amended): the watermark after each handled line equals that line's
parsed unix-second timestamp, so the trace of watermark assignments of one
stream is non-decreasing from any starting point whenever the parsed
timestamps of the stream's lines are non-decreasing (as Docker daemon
timestamps are); the assignment is unconditional, so nothing prevents a
decrease otherwise. -/
theorem c3_watermark_monotone (f : Formatter) (app : Option String)
    (items : List (UtcDateTime × LogOutput)) (b : Int)
    (h : monotoneFrom b (lineTsList items) = true) :
    monotoneFrom b ((runStream f app items).sinceTrace) = true := by
  induction items generalizing b with
  | nil => rfl
  | cons it rest ih =>
    obtain ⟨now, line⟩ := it
    cases hp : parse_log_line now line.message with
    | none =>
      have := parse_log_line_isSome now line.message
      rw [hp] at this
      exact absurd this (by simp)
    | some p =>
      obtain ⟨ts, msg⟩ := p
      have hx : lineTs now line = utcTimestamp ts := by
        unfold lineTs
        rw [hp]
      have hlist : lineTsList ((now, line) :: rest)
          = lineTs now line :: lineTsList rest := rfl
      rw [hlist, hx] at h
      have hsplit := h
      rw [monotoneFrom, Bool.and_eq_true, decide_eq_true_eq] at hsplit
      obtain ⟨hb, hrest⟩ := hsplit
      have hhl : handle_log_line now line f app
          = (f.format msg app (if line.isErr then Severity.Error else Severity.Informational)
              ts).map (fun data => some (data, utcTimestamp ts)) := by
        unfold handle_log_line
        rw [hp]
      cases hf : f.format msg app
          (if line.isErr then Severity.Error else Severity.Informational) ts with
      | none =>
        have : runStream f app ((now, line) :: rest) = ⟨[], 0, [], true⟩ := by
          rw [runStream, hhl, hf]
          rfl
        rw [this]
        rfl
      | some data =>
        have hrun : runStream f app ((now, line) :: rest)
            = ⟨data :: (runStream f app rest).records, 0,
                utcTimestamp ts :: (runStream f app rest).sinceTrace,
                (runStream f app rest).panicked⟩ := by
          rw [runStream, hhl, hf]
          rfl
        rw [hrun]
        show (decide (b ≤ utcTimestamp ts)
          && monotoneFrom (utcTimestamp ts) (runStream f app rest).sinceTrace) = true
        rw [Bool.and_eq_true, decide_eq_true_eq]
        exact ⟨hb, ih _ hrest⟩

/-- Witness for `c3_watermark_monotone` at a concrete two-line stream with
non-decreasing timestamps (50 then 100). -/
theorem c3_watermark_monotone_witness :
    (monotoneFrom 0 (lineTsList
        [(⟨1970, 1, 1, 0, 0, 0, 0⟩, .stdOut (strBytes "1970-01-01T00:00:50Z a")),
         (⟨1970, 1, 1, 0, 0, 0, 0⟩, .stdOut (strBytes "1970-01-01T00:01:40Z b"))]) = true)
    ∧ monotoneFrom 0 ((runStream (Formatter.rfc3164 24 "h" "") (some "web")
        [(⟨1970, 1, 1, 0, 0, 0, 0⟩, .stdOut (strBytes "1970-01-01T00:00:50Z a")),
         (⟨1970, 1, 1, 0, 0, 0, 0⟩, .stdOut (strBytes "1970-01-01T00:01:40Z b"))]).sinceTrace)
      = true :=
  ⟨by decide, c3_watermark_monotone (Formatter.rfc3164 24 "h" "") (some "web")
    [(⟨1970, 1, 1, 0, 0, 0, 0⟩, .stdOut (strBytes "1970-01-01T00:00:50Z a")),
     (⟨1970, 1, 1, 0, 0, 0, 0⟩, .stdOut (strBytes "1970-01-01T00:01:40Z b"))] 0 (by decide)⟩

/-- C4: in both variants `Formatter::format` produces the header bytes,
then the message bytes with every LF and CR byte removed and everything
else verbatim, then exactly one trailing LF; whenever the header itself is
clean of LF/CR (as every header built from clean configuration fields is),
the record contains exactly one LF — the final byte — and no CR at all. -/
theorem c4_format_strips_crlf (f : Formatter) (msg : List Nat) (app : Option String)
    (sev : Severity) (ts : UtcDateTime) (hdr : String)
    (hh : f.headerStr app sev ts = some hdr)
    (hclean : (strBytes hdr).all (fun b => !(b == 10 || b == 13)) = true) :
    f.format msg app sev ts = some (strBytes hdr ++ msgFilter msg ++ [10])
    ∧ (strBytes hdr ++ msgFilter msg ++ [10]).count 10 = 1
    ∧ (strBytes hdr ++ msgFilter msg ++ [10]).count 13 = 0
    ∧ (strBytes hdr ++ msgFilter msg ++ [10]).getLast? = some 10 := by
  refine ⟨?_, ?_, ?_, ?_⟩
  · unfold Formatter.format
    rw [hh]
    rfl
  · rw [List.count_append, List.count_append,
      count_eq_zero_of_all_ne _ _ hclean (Or.inl rfl),
      List.count_eq_zero.mpr (msgFilter_not_mem_10 msg)]
    rfl
  · rw [List.count_append, List.count_append,
      count_eq_zero_of_all_ne _ _ hclean (Or.inr rfl),
      List.count_eq_zero.mpr (msgFilter_not_mem_13 msg)]
    rfl
  · exact List.getLast?_concat _

/-- Witness for `c4_format_strips_crlf`: the legacy formatter of facility
SystemDaemon with pid 42, at a message containing embedded LF and CR
bytes. -/
theorem c4_format_strips_crlf_witness :
    ((Formatter.mkRfc3164 .SystemDaemon "host1" (some 42)).headerStr (some "web") .Error
        ⟨2024, 3, 5, 7, 8, 9, 0⟩ = some "<27>Mar  5 07:08:09 host1 web[42]: ")
    ∧ ((strBytes "<27>Mar  5 07:08:09 host1 web[42]: ").all
        (fun b => !(b == 10 || b == 13)) = true)
    ∧ ((Formatter.mkRfc3164 .SystemDaemon "host1" (some 42)).format [104, 10, 13, 105]
          (some "web") .Error ⟨2024, 3, 5, 7, 8, 9, 0⟩
        = some (strBytes "<27>Mar  5 07:08:09 host1 web[42]: " ++ msgFilter [104, 10, 13, 105] ++ [10])
      ∧ (strBytes "<27>Mar  5 07:08:09 host1 web[42]: " ++ msgFilter [104, 10, 13, 105] ++ [10]).count 10 = 1
      ∧ (strBytes "<27>Mar  5 07:08:09 host1 web[42]: " ++ msgFilter [104, 10, 13, 105] ++ [10]).count 13 = 0
      ∧ (strBytes "<27>Mar  5 07:08:09 host1 web[42]: " ++ msgFilter [104, 10, 13, 105] ++ [10]).getLast? = some 10) :=
  ⟨by decide, by decide,
    c4_format_strips_crlf (Formatter.mkRfc3164 .SystemDaemon "host1" (some 42))
      [104, 10, 13, 105] (some "web") .Error ⟨2024, 3, 5, 7, 8, 9, 0⟩
      "<27>Mar  5 07:08:09 host1 web[42]: " (by decide) (by decide)⟩

/-- C3 (counterexample): a stream whose second line carries an earlier
RFC3339 timestamp than its first makes `collect` move the `since`
watermark backwards: the successive watermark assignments are 100 then 50,
and 50 is smaller than its predecessor. -/
theorem c3_watermark_decreases :
    ((collectRun false "host1" 0
        [⟨false, true, some ⟨some "/c1", none, [], none⟩,
          [(⟨1970, 1, 1, 0, 0, 0, 0⟩, .stdOut (strBytes "1970-01-01T00:01:40Z a")),
           (⟨1970, 1, 1, 0, 0, 0, 0⟩, .stdOut (strBytes "1970-01-01T00:00:50Z b"))],
          false, .closed⟩]).sinceTrace = [100, 50])
    ∧ monotoneFrom 0 [100, 50] = false := by
  constructor
  · decide
  · decide


/-- C5: whenever `Formatter::rfc5424` succeeds, the stored hostname is at
most 255 bytes (exactly 255 for longer inputs) and the stored msgid is at
most 32 bytes (exactly 32 for longer inputs, `-` when absent); whenever the
app-name field computation of `Formatter::format` succeeds, the field is at
most 48 bytes (exactly 48 for longer inputs, `-` when absent). -/
theorem c5_rfc5424_field_limits (fac : Facility) (host : String) (pid : Option Int)
    (msgid : Option String) (po : Nat) (hstF prF miF : String)
    (a : Option String) (fa : String)
    (hmk : Formatter.mkRfc5424 fac host pid msgid = some (.rfc5424 po hstF prF miF))
    (happ : appField a = some fa) :
    (byteLen hstF ≤ 255 ∧ (byteLen host > 255 → byteLen hstF = 255))
    ∧ (byteLen miF ≤ 32 ∧ (byteLen (msgid.getD "") > 32 → byteLen miF = 32)
        ∧ (msgid = none → miF = "-"))
    ∧ (byteLen fa ≤ 48 ∧ (byteLen (a.getD "") > 48 → byteLen fa = 48)
        ∧ (a = none → fa = "-")) := by
  rw [Formatter.mkRfc5424] at hmk
  cases ht : truncTo host 255 with
  | none => rw [ht] at hmk; exact absurd hmk (by simp)
  | some hv =>
    rw [ht, Option.some_bind] at hmk
    have hhostSpec := truncTo_some_spec host 255 _ ht
    have happGoal : byteLen fa ≤ 48 ∧ (byteLen (a.getD "") > 48 → byteLen fa = 48)
        ∧ (a = none → fa = "-") := by
      cases a with
      | none =>
        have hfa : fa = "-" := (Option.some.inj happ).symm
        subst hfa
        exact ⟨by decide, fun hgt => absurd hgt (by decide), fun _ => rfl⟩
      | some s =>
        have hts : truncTo s 48 = some fa := happ
        have hspec := truncTo_some_spec s 48 _ hts
        exact ⟨hspec.1, fun hgt => hspec.2.1 (by simpa using hgt),
          fun hcon => absurd hcon (by simp)⟩
    cases msgid with
    | none =>
      rw [show msgidField none = some "-" from rfl, Option.some_bind] at hmk
      have hinj := (Formatter.rfc5424.injEq _ _ _ _ _ _ _ _).mp (Option.some.inj hmk)
      have hhv : hstF = hv := hinj.2.1.symm
      have hmi : miF = "-" := hinj.2.2.2.symm
      subst hhv
      subst hmi
      exact ⟨⟨hhostSpec.1, hhostSpec.2.1⟩,
        ⟨by decide, fun hgt => absurd hgt (by decide), fun _ => rfl⟩, happGoal⟩
    | some m =>
      rw [show msgidField (some m) = truncTo m 32 from rfl] at hmk
      cases hm : truncTo m 32 with
      | none => rw [hm] at hmk; exact absurd hmk (by simp)
      | some mv =>
        rw [hm, Option.some_bind] at hmk
        have hinj := (Formatter.rfc5424.injEq _ _ _ _ _ _ _ _).mp (Option.some.inj hmk)
        have hhv : hstF = hv := hinj.2.1.symm
        have hmi : miF = mv := hinj.2.2.2.symm
        subst hhv
        subst hmi
        have hspec := truncTo_some_spec m 32 _ hm
        exact ⟨⟨hhostSpec.1, hhostSpec.2.1⟩,
          ⟨hspec.1, fun hgt => hspec.2.1 (by simpa using hgt),
            fun hcon => absurd hcon (by simp)⟩, happGoal⟩

/-- Witness for `c5_rfc5424_field_limits`: a 300-byte hostname, a 40-byte
msgid and a 60-byte app-name, all truncated to exactly 255/32/48 bytes. -/
theorem c5_rfc5424_field_limits_witness :
    (Formatter.mkRfc5424 .SystemDaemon (String.mk (List.replicate 300 'a')) none
        (some (String.mk (List.replicate 40 'b')))
      = some (.rfc5424 24 (String.mk (List.replicate 255 'a')) "-"
          (String.mk (List.replicate 32 'b'))))
    ∧ (appField (some (String.mk (List.replicate 60 'c')))
        = some (String.mk (List.replicate 48 'c')))
    ∧ ((byteLen (String.mk (List.replicate 255 'a')) ≤ 255
        ∧ (byteLen (String.mk (List.replicate 300 'a')) > 255
            → byteLen (String.mk (List.replicate 255 'a')) = 255))
      ∧ (byteLen (String.mk (List.replicate 32 'b')) ≤ 32
        ∧ (byteLen ((some (String.mk (List.replicate 40 'b'))).getD "") > 32
            → byteLen (String.mk (List.replicate 32 'b')) = 32)
        ∧ (some (String.mk (List.replicate 40 'b')) = none
            → String.mk (List.replicate 32 'b') = "-"))
      ∧ (byteLen (String.mk (List.replicate 48 'c')) ≤ 48
        ∧ (byteLen ((some (String.mk (List.replicate 60 'c'))).getD "") > 48
            → byteLen (String.mk (List.replicate 48 'c')) = 48)
        ∧ (some (String.mk (List.replicate 60 'c')) = none
            → String.mk (List.replicate 48 'c') = "-"))) :=
  ⟨by decide, by decide,
    c5_rfc5424_field_limits .SystemDaemon (String.mk (List.replicate 300 'a')) none
      (some (String.mk (List.replicate 40 'b'))) 24 (String.mk (List.replicate 255 'a'))
      "-" (String.mk (List.replicate 32 'b'))
      (some (String.mk (List.replicate 60 'c'))) (String.mk (List.replicate 48 'c'))
      (by decide) (by decide)⟩

/-- C6: for every record handed to the Udp branch of `SocketSender::send`
(formatted records always end with the newline delimiter): a record longer
than `MAX_UDP_PACKET_SIZE` is transmitted as exactly its first
`MAX_UDP_PACKET_SIZE` bytes; otherwise the transmitted bytes are the record
with only its single trailing delimiter byte removed, every other byte
unchanged. -/
theorem c6_udp_payload_truncation (data : List Nat) (hlast : data.getLast? = some 10) :
    (data.length > MAX_UDP_PACKET_SIZE → udpPayload data = some (data.take MAX_UDP_PACKET_SIZE))
    ∧ (data.length ≤ MAX_UDP_PACKET_SIZE →
        udpPayload data = some data.dropLast ∧ data = data.dropLast ++ [10]) := by
  have hne : data ≠ [] := by
    intro he
    rw [he] at hlast
    exact absurd hlast (by simp)
  have hlen0 : data.length ≠ 0 := by
    simpa [List.length_eq_zero] using hne
  constructor
  · intro hgt
    unfold udpPayload
    rw [if_pos hgt]
  · intro hle
    constructor
    · unfold udpPayload
      rw [if_neg (by omega), if_neg hlen0, List.dropLast_eq_take]
    · exact (List.dropLast_append_getLast? 10 (by simpa [Option.mem_def] using hlast)).symm

/-- Witness for `c6_udp_payload_truncation` at a small concrete record. -/
theorem c6_udp_payload_truncation_witness :
    (([104, 105, 10] : List Nat).getLast? = some 10)
    ∧ ((([104, 105, 10] : List Nat).length > MAX_UDP_PACKET_SIZE
          → udpPayload [104, 105, 10] = some (([104, 105, 10] : List Nat).take MAX_UDP_PACKET_SIZE))
      ∧ (([104, 105, 10] : List Nat).length ≤ MAX_UDP_PACKET_SIZE
          → udpPayload [104, 105, 10] = some ([104, 105, 10] : List Nat).dropLast
            ∧ ([104, 105, 10] : List Nat) = ([104, 105, 10] : List Nat).dropLast ++ [10])) :=
  ⟨by decide, c6_udp_payload_truncation [104, 105, 10] (by decide)⟩

/-- C7: the Tcp branch of `SocketSender::send` completes only after a full
write followed by a flush both succeed on one connection; after any number
`n` of consecutive connection failures followed by a successful connect,
write and flush, the call's trace is `n` failed connects, one successful
connect, one write and one flush, and the record is delivered exactly
once. -/
theorem c7_tcp_retry_delivers_once (n : Nat) :
    sendTcpRun false (List.replicate n false ++ [true, true, true])
      = some (List.replicate n TcpEv.connFail ++ [TcpEv.connOk, TcpEv.writeOk, TcpEv.flushOk])
    ∧ deliveries (List.replicate n TcpEv.connFail
        ++ [TcpEv.connOk, TcpEv.writeOk, TcpEv.flushOk]) = 1 := by
  constructor
  · induction n with
    | zero => rfl
    | succ n ih =>
      rw [List.replicate_succ, List.cons_append, List.replicate_succ, List.cons_append]
      show (sendTcpRun false (List.replicate n false ++ [true, true, true])).map
          (fun t => TcpEv.connFail :: t) = _
      rw [ih]
      rfl
  · induction n with
    | zero => rfl
    | succ n ih =>
      rw [List.replicate_succ, List.cons_append]
      show deliveries (TcpEv.connFail
        :: (List.replicate n TcpEv.connFail ++ [TcpEv.connOk, TcpEv.writeOk, TcpEv.flushOk])) = 1
      unfold deliveries at ih ⊢
      rw [List.count_cons_of_ne (by decide), ih]

/-- C8: a collector for a container whose `enabled` label evaluates to
false pushes zero records and opens zero log streams, whatever else the
environment does; and `container_infos` defaults `enabled` to true when
the label is absent. -/
theorem c8_disabled_container_idle (use3164 : Bool) (hostname : String) (since : Int)
    (script : List OuterEnv) (info2 : InspectInfo)
    (hdis : disabledScript script = true)
    (habs : lookupLabel info2.labels "de.hammer065.docker-log-emitter.enabled" = none) :
    ((collectRun use3164 hostname since script).records = []
      ∧ (collectRun use3164 hostname since script).opened = 0)
    ∧ (container_infos info2).enabled = true := by
  constructor
  · cases script with
    | nil => exact ⟨rfl, rfl⟩
    | cons env rest =>
      have hhead0 : (match env.inspectRes with
          | none => true
          | some info =>
            match lookupLabel info.labels "de.hammer065.docker-log-emitter.enabled" with
            | none => false
            | some v => !(bool_from_str v)) = true := by
        rw [disabledScript, List.all_cons, Bool.and_eq_true] at hdis
        exact hdis.1
      cases hc : env.cancelledAtStart with
      | true =>
        have hres : collectRun use3164 hostname since (env :: rest) = ⟨[], 0, [], false⟩ := by
          rw [collectRun]
          simp [hc]
        rw [hres]
        exact ⟨rfl, rfl⟩
      | false =>
        cases hco : env.connectOk with
        | false =>
          have hres : collectRun use3164 hostname since (env :: rest) = ⟨[], 0, [], false⟩ := by
            rw [collectRun]
            simp [hc, hco]
          rw [hres]
          exact ⟨rfl, rfl⟩
        | true =>
          cases hins : env.inspectRes with
          | none =>
            have hres : collectRun use3164 hostname since (env :: rest) = ⟨[], 0, [], false⟩ := by
              rw [collectRun]
              simp [hc, hco, hins]
            rw [hres]
            exact ⟨rfl, rfl⟩
          | some info =>
            rw [hins] at hhead0
            have hhead : (match lookupLabel info.labels
                  "de.hammer065.docker-log-emitter.enabled" with
                | none => false
                | some v => !(bool_from_str v)) = true := hhead0
            cases hl : lookupLabel info.labels "de.hammer065.docker-log-emitter.enabled" with
            | none => rw [hl] at hhead; exact absurd hhead (by simp)
            | some v =>
              rw [hl] at hhead
              have hen : bool_from_str v = false := by simpa using hhead
              have hres : collectRun use3164 hostname since (env :: rest)
                  = ⟨[], 0, [], false⟩ := by
                rw [collectRun]
                simp [hc, hco, hins, container_infos, hl, hen]
              rw [hres]
              exact ⟨rfl, rfl⟩
  · unfold container_infos
    simp only [habs]

/-- Witness for `c8_disabled_container_idle`: a one-iteration script whose
inspection shows `enabled=false`, and a label map with no `enabled` key. -/
theorem c8_disabled_container_idle_witness :
    (disabledScript [⟨false, true, some ⟨some "/c1", none,
        [("de.hammer065.docker-log-emitter.enabled", "false")], none⟩, [], false, .closed⟩] = true)
    ∧ (lookupLabel ([] : List (String × String)) "de.hammer065.docker-log-emitter.enabled" = none)
    ∧ (((collectRun false "host1" 0 [⟨false, true, some ⟨some "/c1", none,
          [("de.hammer065.docker-log-emitter.enabled", "false")], none⟩, [], false, .closed⟩]).records = []
        ∧ (collectRun false "host1" 0 [⟨false, true, some ⟨some "/c1", none,
          [("de.hammer065.docker-log-emitter.enabled", "false")], none⟩, [], false, .closed⟩]).opened = 0)
      ∧ (container_infos ⟨none, none, [], none⟩).enabled = true) :=
  ⟨by decide, by decide,
    c8_disabled_container_idle false "host1" 0
      [⟨false, true, some ⟨some "/c1", none,
        [("de.hammer065.docker-log-emitter.enabled", "false")], none⟩, [], false, .closed⟩]
      ⟨none, none, [], none⟩ (by decide) (by decide)⟩

/-- C9 (counterexample): a 33-byte msgid whose 32nd byte offset falls
inside a two-byte UTF-8 character makes the structured-variant truncation
panic (`Formatter::rfc5424` slices `&msgid[0..32]` off a character
boundary): the model returns `none`. -/
theorem c9_slice_panics_mid_char :
    byteLen (String.mk (List.replicate 31 'a') ++ "é") > 32
    ∧ Formatter.mkRfc5424 .SystemDaemon "host1" none
        (some (String.mk (List.replicate 31 'a') ++ "é")) = none := by
  constructor
  · decide
  · decide

/-- C9 (amended): the structured-variant truncation slicing succeeds when
the byte limit falls on a character boundary of the input (in particular
for inputs at or below the limit, and always for pure-ASCII inputs); when
the limit falls strictly inside a multi-byte character, the slice panics. -/
theorem c9_slice_total_on_boundary (fac : Facility) (host m a : String) (pid : Option Int)
    (hhost : IsByteBoundary host 255 ∨ byteLen host ≤ 255)
    (hm : IsByteBoundary m 32 ∨ byteLen m ≤ 32)
    (ha : IsByteBoundary a 48 ∨ byteLen a ≤ 48) :
    (Formatter.mkRfc5424 fac host pid (some m)).isSome
    ∧ (appField (some a)).isSome := by
  obtain ⟨hv, hveq⟩ := Option.isSome_iff_exists.mp (truncTo_isSome host 255 hhost)
  obtain ⟨mv, hmeq⟩ := Option.isSome_iff_exists.mp (truncTo_isSome m 32 hm)
  constructor
  · rw [Formatter.mkRfc5424, hveq, Option.some_bind,
      show msgidField (some m) = truncTo m 32 from rfl, hmeq, Option.some_bind]
    rfl
  · show (truncTo a 48).isSome
    exact truncTo_isSome a 48 ha

/-- Witness for `c9_slice_total_on_boundary` at in-limit field values. -/
theorem c9_slice_total_on_boundary_witness :
    (IsByteBoundary "host1" 255 ∨ byteLen "host1" ≤ 255)
    ∧ (IsByteBoundary "cid123" 32 ∨ byteLen "cid123" ≤ 32)
    ∧ (IsByteBoundary "web" 48 ∨ byteLen "web" ≤ 48)
    ∧ ((Formatter.mkRfc5424 .SystemDaemon "host1" none (some "cid123")).isSome
      ∧ (appField (some "web")).isSome) :=
  ⟨Or.inr (by decide), Or.inr (by decide), Or.inr (by decide),
    c9_slice_total_on_boundary .SystemDaemon "host1" "cid123" "web" none
      (Or.inr (by decide)) (Or.inr (by decide)) (Or.inr (by decide))⟩

/-- C10: when the initial open of the destination file fails, the file sink
cancels the shared cancellation token and returns without consuming any
record from the channel; a file sink whose open succeeded never cancels the
token, and the socket sink never cancels it on any path — so the file
sink's startup failure is the only sink path that cancels the pipeline. -/
theorem c10_file_open_failure_cancels (evs evs2 : List FileEv) (evs3 : List SockEv) :
    fileRun false evs = ⟨true, [], []⟩
    ∧ (fileRun true evs2).cancelRequested = false
    ∧ (socketRun evs3).cancelRequested = false := by
  refine ⟨rfl, ?_, ?_⟩
  · show (fileLoop evs2).cancelRequested = false
    induction evs2 with
    | nil => rfl
    | cons e rest ih =>
      cases e with
      | cancelled => rfl
      | sighup b => exact ih
      | recvClosed => rfl
      | recvData d w => exact ih
  · induction evs3 with
    | nil => rfl
    | cons e rest ih =>
      cases e with
      | cancelled => rfl
      | recvClosed => rfl
      | clearRecv => exact ih
      | recvData d oracle =>
        cases ho : sendTcpRun false oracle with
        | none => rw [socketRun, ho]
        | some tr =>
          rw [socketRun, ho]
          exact ih
